import Mathlib

/-!
Shallow embedding of the websocket chat relay server (single source file:
an Express + `ws` server holding an in-memory client registry, a room
directory, and a JSON-file message store).  JavaScript runtime behaviour
relevant to the handlers (string truthiness, `String(...)` coercion of an
absent field to "undefined", `Array.prototype.slice(-n)`, `push` followed
by a conditional `shift`, insertion-ordered `Map`/`Set`) is modelled
explicitly.  All definitions are executable.
-/

namespace Chat

/-- JS truthiness of a possibly-absent string value (`undefined`, `null`
and `""` are falsy). -/
def truthyS : Option String → Bool
  | none => false
  | some s => s != ""

/-- JS `String(x)` applied to a possibly-absent string value:
`String(undefined) = "undefined"`. -/
def jsString : Option String → String
  | none => "undefined"
  | some s => s

/-- JS `a || b` on possibly-absent string values. -/
def jsOr (a b : Option String) : Option String :=
  if truthyS a then a else b

/-- JS `String.prototype.trim()`: strip whitespace from both ends. -/
def jsTrim (s : String) : String :=
  ⟨((s.data.dropWhile Char.isWhitespace).reverse.dropWhile Char.isWhitespace).reverse⟩

/-- JS `l.slice(-n)`: the final `n` elements, or all of `l` when it is
shorter. -/
def sliceLast {α : Type} (n : Nat) (l : List α) : List α :=
  l.drop (l.length - n)

/-- The store's retention discipline: `push` the new entry, then
`if (log.length > 2000) log.shift()`. -/
def pushCap {α : Type} (l : List α) (a : α) : List α :=
  let l' := l ++ [a]
  if 2000 < l'.length then l'.tail else l'

/-- Lexicographic comparison of two character lists by scalar value,
modelling the code-unit comparison behind JS's default sort comparator. -/
def strLtb : List Char → List Char → Bool
  | [], [] => false
  | [], _ :: _ => true
  | _ :: _, [] => false
  | c :: cs, d :: ds => if c = d then strLtb cs ds else decide (c.toNat < d.toNat)

/-- The default JS string comparison used by `Array.prototype.sort`. -/
def jsLt (a b : String) : Bool := strLtb a.data b.data

/-- JS `[a, b].sort()` on two strings (default comparator; the stable
sort swaps the pair exactly when `b` compares below `a`). -/
def sortPair (a b : String) : List String :=
  if jsLt b a then [b, a] else [a, b]

/-- The DM store key: `[a, b].sort().join("|")`. -/
def dmKey (a b : String) : String :=
  String.intercalate "|" (sortPair a b)

/-- Lookup in an insertion-ordered map (JS `Map.get` / object index). -/
def lookupL {κ α : Type} [DecidableEq κ] : List (κ × α) → κ → Option α
  | [], _ => none
  | (k, v) :: rest, key => if k = key then some v else lookupL rest key

/-- Update in an insertion-ordered map (JS `Map.set` / object property
assignment): replace in place when the key exists, else append. -/
def setL {κ α : Type} [DecidableEq κ] : List (κ × α) → κ → α → List (κ × α)
  | [], key, v => [(key, v)]
  | (k, w) :: rest, key, v =>
    if k = key then (k, v) :: rest else (k, w) :: setL rest key v

/-- JS `Map.delete`. -/
def delL {κ α : Type} [DecidableEq κ] : List (κ × α) → κ → List (κ × α)
  | [], _ => []
  | (k, v) :: rest, key => if k = key then rest else (k, v) :: delL rest key

/-- JS `Set.add` on an insertion-ordered set. -/
def addMem (s : List Nat) (w : Nat) : List Nat :=
  if w ∈ s then s else s ++ [w]

/-- JS `Set.delete`. -/
def delMem (s : List Nat) (w : Nat) : List Nat :=
  s.filter (fun x => x ≠ w)

/-- A stored room message `{username, text, ts}`. -/
structure Msg where
  username : String
  text : String
  ts : Nat
deriving DecidableEq, Repr

/-- A stored direct message `{from, to, text, ts}` (`from` is a Lean
keyword, rendered `sender`/`recip`). -/
structure DmMsg where
  sender : String
  recip : String
  text : String
  ts : Nat
deriving DecidableEq, Repr

/-- Per-connection session state: `{id, username, room, typing}` in the
`clients` map. -/
structure Meta where
  id : Nat
  username : Option String
  room : Option String
  typing : Bool
deriving DecidableEq, Repr

/-- Whole-server state: the `clients` registry, the `rooms` directory,
the JSON store (`rooms` and `dms` keyed logs) and the id counter.
Connections are identified by an abstract numeric handle. -/
structure ServerState where
  clients : List (Nat × Meta)
  rooms : List (String × List Nat)
  dbRooms : List (String × List Msg)
  dbDms : List (String × List DmMsg)
  nextId : Nat
deriving DecidableEq, Repr

/-- Fresh process state: empty registry and directory, store
`{rooms:{}, dms:{}}`, `nextUserId = 1`. -/
def initState : ServerState := ⟨[], [], [], [], 1⟩

/-- Inbound client events, one variant per `data.type` the server
dispatches on.  String-valued payload fields are `Option String`
(`none` = field absent). -/
inductive ClientEvent where
  | login (username : Option String)
  | createRoom (room : Option String)
  | joinRoom (room : Option String)
  | leaveRoom
  | message (room : Option String) (text : Option String)
  | dm (toU : Option String) (text : Option String)
  | typing (isTyping : Bool)
  | history (room : Option String)
deriving DecidableEq, Repr

/-- Outbound server events. -/
inductive ServerMsg where
  | welcome (message : String)
  | loginSuccess (username : String) (users : List (String × Option String))
      (roomsL : List String) (room : String)
  | history (room : String) (messages : List Msg)
  | presence (users : List (String × Option String))
  | roomList (roomsL : List String)
  | notification (text : String)
  | roomMessage (room : String) (username : String) (text : String) (ts : Nat)
  | dmMessage (sender : String) (recip : String) (text : String) (ts : Nat)
  | typing (room : Option String) (username : String) (isTyping : Bool)
  | error (message : String)
deriving DecidableEq, Repr

/-- A batch of sends: (target connection, event) in emission order. -/
abbrev Sends := List (Nat × ServerMsg)

/-- `Array.from(clients.values()).filter(u => u.username).map(u => ({username, room}))`. -/
def usersListOf (clients : List (Nat × Meta)) : List (String × Option String) :=
  (clients.filter (fun p => truthyS p.2.username)).map
    (fun p => (p.2.username.getD "", p.2.room))

/-- Members of a room read from the directory; `rooms.get(r)` on an
absent (or `null`) room yields no recipients. -/
def membersOf (rooms : List (String × List Nat)) : Option String → List Nat
  | none => []
  | some r => (lookupL rooms r).getD []

/-- `if (!db.rooms[k]) db.rooms[k] = []` (an existing empty log is truthy
and left alone; only an absent key is initialised). -/
def ensureKey {α : Type} (m : List (String × List α)) (k : String) :
    List (String × List α) :=
  match lookupL m k with
  | none => setL m k []
  | some _ => m

/-- `String(data.username || ("User" + meta.id)).trim()`. -/
def loginName (u : Option String) (id : Nat) : String :=
  jsTrim (jsString (jsOr u (some ("User" ++ toString id))))

/-- The `login` handler. -/
def handleLogin (st : ServerState) (ws : Nat) (meta : Meta)
    (u : Option String) : ServerState × Sends :=
  let username := loginName u meta.id
  let rooms1 := setL st.rooms "lobby" (addMem ((lookupL st.rooms "lobby").getD []) ws)
  let meta2 : Meta := { meta with username := some username, room := some "lobby" }
  let clients1 := setL st.clients ws meta2
  let dbRooms1 := ensureKey st.dbRooms "lobby"
  let users := usersListOf clients1
  let roomsL := rooms1.map (fun p => p.1)
  let roomMsgs := (lookupL dbRooms1 "lobby").getD []
  let st1 : ServerState :=
    { st with clients := clients1, rooms := rooms1, dbRooms := dbRooms1 }
  let sends : Sends :=
    [(ws, ServerMsg.loginSuccess username users roomsL "lobby"),
     (ws, ServerMsg.history "lobby" (sliceLast 200 roomMsgs))]
    ++ clients1.map (fun p => (p.1, ServerMsg.presence users))
    ++ (membersOf rooms1 (some "lobby")).map
        (fun w => (w, ServerMsg.notification (username ++ " joined lobby")))
  (st1, sends)

/-- The `create_room` handler. -/
def handleCreateRoom (st : ServerState) (ws : Nat) (meta : Meta)
    (r : Option String) : ServerState × Sends :=
  let room := jsTrim (jsString r)
  if room = "" then (st, [])
  else
    let rooms1 := if (lookupL st.rooms room).isSome then st.rooms else setL st.rooms room []
    let dbRooms1 := ensureKey st.dbRooms room
    let st1 : ServerState := { st with rooms := rooms1, dbRooms := dbRooms1 }
    (st1, st.clients.map (fun p => (p.1, ServerMsg.roomList (rooms1.map (fun q => q.1)))))

/-- The `join_room` handler. -/
def handleJoinRoom (st : ServerState) (ws : Nat) (meta : Meta)
    (r : Option String) : ServerState × Sends :=
  let room := jsTrim (jsString r)
  if room = "" then (st, [])
  else
    let prevStep : (List (String × List Nat)) × Sends :=
      if truthyS meta.room then
        match lookupL st.rooms (meta.room.getD "") with
        | some ms =>
          let ms' := delMem ms ws
          (setL st.rooms (meta.room.getD "") ms',
           ms'.map (fun w =>
             (w, ServerMsg.notification
                   ((meta.username.getD "") ++ " left " ++ (meta.room.getD "")))))
        | none => (st.rooms, [])
      else (st.rooms, [])
    let rooms1 := prevStep.1
    let rooms2 := setL rooms1 room (addMem ((lookupL rooms1 room).getD []) ws)
    let meta2 : Meta := { meta with room := some room }
    let clients1 := setL st.clients ws meta2
    let dbRooms1 := ensureKey st.dbRooms room
    let hist := sliceLast 200 ((lookupL dbRooms1 room).getD [])
    let st1 : ServerState :=
      { st with clients := clients1, rooms := rooms2, dbRooms := dbRooms1 }
    let sends : Sends :=
      prevStep.2
      ++ [(ws, ServerMsg.history room hist)]
      ++ (membersOf rooms2 (some room)).map
          (fun w => (w, ServerMsg.notification
                          ((meta.username.getD "") ++ " joined " ++ room)))
      ++ clients1.map (fun p => (p.1, ServerMsg.roomList (rooms2.map (fun q => q.1))))
    (st1, sends)

/-- The `leave_room` handler. -/
def handleLeaveRoom (st : ServerState) (ws : Nat) (meta : Meta) :
    ServerState × Sends :=
  let prevStep : (List (String × List Nat)) × Sends :=
    if truthyS meta.room then
      match lookupL st.rooms (meta.room.getD "") with
      | some ms =>
        let ms' := delMem ms ws
        (setL st.rooms (meta.room.getD "") ms',
         ms'.map (fun w =>
           (w, ServerMsg.notification
                 ((meta.username.getD "") ++ " left " ++ (meta.room.getD "")))))
      | none => (st.rooms, [])
    else (st.rooms, [])
  let clients1 := setL st.clients ws { meta with room := none }
  let users := usersListOf clients1
  let st1 : ServerState := { st with clients := clients1, rooms := prevStep.1 }
  (st1, prevStep.2 ++ clients1.map (fun p => (p.1, ServerMsg.presence users)))

/-- The `message` handler. -/
def handleMessage (st : ServerState) (ws : Nat) (meta : Meta)
    (r t : Option String) (now : Nat) : ServerState × Sends :=
  let room? := jsOr r meta.room
  let text := t.getD ""
  if truthyS room? then
    let room := room?.getD ""
    let oldLog := (lookupL st.dbRooms room).getD []
    let newLog := pushCap oldLog ⟨meta.username.getD "", text, now⟩
    let st1 : ServerState := { st with dbRooms := setL st.dbRooms room newLog }
    (st1, (membersOf st.rooms (some room)).map
      (fun w => (w, ServerMsg.roomMessage room (meta.username.getD "") text now)))
  else
    (st, [(ws, ServerMsg.error "Not in a room")])

/-- The `dm` handler. -/
def handleDm (st : ServerState) (ws : Nat) (meta : Meta)
    (toU t : Option String) (now : Nat) : ServerState × Sends :=
  let toName := jsTrim ((jsOr toU (some "")).getD "")
  let text := t.getD ""
  if toName = "" then (st, [])
  else
    let target : Option Nat :=
      (st.clients.find? (fun p => p.2.username = some toName)).map (fun p => p.1)
    let name := meta.username.getD ""
    let key := dmKey name toName
    let oldLog := (lookupL st.dbDms key).getD []
    let newLog := pushCap oldLog (⟨name, toName, text, now⟩ : DmMsg)
    let st1 : ServerState := { st with dbDms := setL st.dbDms key newLog }
    let sends : Sends :=
      (match target with
       | some tw => [(tw, ServerMsg.dmMessage name toName text now)]
       | none => [])
      ++ [(ws, ServerMsg.dmMessage name toName text now)]
    (st1, sends)

/-- The `typing` handler. -/
def handleTyping (st : ServerState) (ws : Nat) (meta : Meta)
    (isTyping : Bool) : ServerState × Sends :=
  let clients1 := setL st.clients ws { meta with typing := isTyping }
  let st1 : ServerState := { st with clients := clients1 }
  (st1, (membersOf st.rooms meta.room).map
    (fun w => (w, ServerMsg.typing meta.room (meta.username.getD "") isTyping)))

/-- The `history` handler. -/
def handleHistory (st : ServerState) (ws : Nat) (meta : Meta)
    (r : Option String) : ServerState × Sends :=
  if truthyS r then
    let room := r.getD ""
    (st, [(ws, ServerMsg.history room ((lookupL st.dbRooms room).getD []))])
  else
    (st, [(ws, ServerMsg.error "room required")])

/-- `isLogin e` discriminates the one event exempt from the login gate. -/
def isLogin : ClientEvent → Bool
  | .login _ => true
  | _ => false

/-- The `ws.on("message")` dispatcher: look up the session, let `login`
through, gate everything else behind a truthy `meta.username`. -/
def handleEvent (st : ServerState) (ws : Nat) (e : ClientEvent) (now : Nat) :
    ServerState × Sends :=
  match lookupL st.clients ws with
  | none => (st, [])
  | some meta =>
    match e with
    | .login u => handleLogin st ws meta u
    | e =>
      if truthyS meta.username then
        match e with
        | .login u => handleLogin st ws meta u
        | .createRoom r => handleCreateRoom st ws meta r
        | .joinRoom r => handleJoinRoom st ws meta r
        | .leaveRoom => handleLeaveRoom st ws meta
        | .message r t => handleMessage st ws meta r t now
        | .dm toU t => handleDm st ws meta toU t now
        | .typing b => handleTyping st ws meta b
        | .history r => handleHistory st ws meta r
      else
        (st, [(ws, ServerMsg.error "Please login first.")])

/-- The `wss.on("connection")` handler: register a fresh session and send
the welcome prompt. -/
def handleConnect (st : ServerState) (ws : Nat) : ServerState × Sends :=
  let meta : Meta := ⟨st.nextId, none, none, false⟩
  ({ st with clients := setL st.clients ws meta, nextId := st.nextId + 1 },
   [(ws, ServerMsg.welcome "Welcome! Please send \x7btype:'login', username\x7d")])

/-- The `ws.on("close")` handler. -/
def handleClose (st : ServerState) (ws : Nat) : ServerState × Sends :=
  match lookupL st.clients ws with
  | some meta =>
    let rooms1 :=
      if truthyS meta.room then
        match lookupL st.rooms (meta.room.getD "") with
        | some ms => setL st.rooms (meta.room.getD "") (delMem ms ws)
        | none => st.rooms
      else st.rooms
    let clients1 := delL st.clients ws
    let name := if truthyS meta.username then meta.username.getD ""
                else "User" ++ toString meta.id
    let st1 : ServerState := { st with clients := clients1, rooms := rooms1 }
    (st1,
     clients1.map (fun p => (p.1, ServerMsg.presence (usersListOf clients1)))
     ++ if truthyS meta.room then
          (membersOf rooms1 meta.room).map
            (fun w => (w, ServerMsg.notification (name ++ " disconnected")))
        else [])
  | none =>
    (st, st.clients.map (fun p => (p.1, ServerMsg.presence (usersListOf st.clients))))

end Chat

namespace Chat

/-! ## Concrete traces used by the counterexample theorems -/

/-- Fresh process, one connection on handle 1. -/
def stConn1 : ServerState := (handleConnect initState 1).1

/-- ... then `{type:'login', username:'alice'}` on handle 1. -/
def stLogin1 : ServerState := (handleEvent stConn1 1 (.login (some "alice")) 0).1

/-- ... then `{type:'join_room', room:'general'}` on handle 1. -/
def stJoinG : ServerState := (handleEvent stLogin1 1 (.joinRoom (some "general")) 0).1

/-- ... then a second `{type:'login', username:'alice'}` on handle 1. -/
def stRelogin : ServerState := (handleEvent stJoinG 1 (.login (some "alice")) 0).1

/-- A second connection on handle 2 after alice's login ... -/
def stConn2 : ServerState := (handleConnect stLogin1 2).1

/-- ... then `{type:'login', username:'bob'}` on handle 2: alice and bob
are both members of `lobby`. -/
def stLogin2 : ServerState := (handleEvent stConn2 2 (.login (some "bob")) 0).1

/-- ... alice leaves her room: `{type:'leave_room'}` on handle 1. -/
def stLeave : ServerState := (handleEvent stLogin1 1 .leaveRoom 0).1

/-- A filler room message for the at-cap logs. -/
def msgA : Msg := ⟨"x", "y", 0⟩

/-- A filler direct message for the at-cap logs. -/
def dmA : DmMsg := ⟨"alice", "bob", "z", 0⟩

/-- A state whose lobby log and alice|bob DM log are both at cap 2000. -/
def stCap : ServerState :=
  ⟨[(1, ⟨1, some "alice", some "lobby", false⟩)],
   [("lobby", [1])],
   [("lobby", List.replicate 2000 msgA)],
   [("alice|bob", List.replicate 2000 dmA)],
   2⟩

end Chat

namespace Chat

/-! ## Helper lemmas about the map/set primitives -/

theorem lookupL_setL {κ α : Type} [DecidableEq κ]
    (m : List (κ × α)) (k k' : κ) (v : α) :
    lookupL (setL m k v) k' = if k' = k then some v else lookupL m k' := by
  induction m with
  | nil =>
    simp only [setL, lookupL]
    by_cases h : k = k' <;> by_cases h' : k' = k <;> simp_all
  | cons p rest ih =>
    obtain ⟨pk, pv⟩ := p
    simp only [setL]
    by_cases h : pk = k
    · subst h
      by_cases h' : k' = pk
      · subst h'
        simp [lookupL]
      · have h'' : ¬ (pk = k') := fun hh => h' hh.symm
        simp [lookupL, h', h'']
    · simp only [if_neg h]
      by_cases h'' : pk = k'
      · subst h''
        simp [lookupL, h]
      · simp [lookupL, h'', ih]

theorem mem_addMem_self (s : List Nat) (w : Nat) : w ∈ addMem s w := by
  unfold addMem
  by_cases h : w ∈ s <;> simp [h]

theorem lookupL_ensureKey_self {α : Type} (m : List (String × List α)) (k : String) :
    lookupL (ensureKey m k) k = some ((lookupL m k).getD []) := by
  unfold ensureKey
  cases h : lookupL m k with
  | none => simp [lookupL_setL, h]
  | some l => simp [h]

theorem pushCap_at_cap {α : Type} (l : List α) (a : α) (h : l.length = 2000) :
    pushCap l a = l.tail ++ [a] ∧ (l.tail ++ [a]).length = 2000 := by
  cases l with
  | nil => simp at h
  | cons x xs =>
    have h' : xs.length = 1999 := by
      simp only [List.length_cons] at h
      omega
    refine ⟨?_, ?_⟩
    · simp [pushCap, h']
    · simp [h']

/-! ## C4: the DM store key is symmetric in its two arguments -/

theorem charToNatInj (a b : Char) (h : a.toNat = b.toNat) : a = b := by
  have hinj : Function.Injective Char.toNat := StrictMono.injective fun _ _ hh => hh
  exact hinj h

theorem strLtb_asymm : ∀ x y, strLtb x y = true → strLtb y x = false := by
  intro x
  induction x with
  | nil => intro y h; cases y <;> simp_all [strLtb]
  | cons c cs ih =>
    intro y h
    cases y with
    | nil => simp [strLtb] at h
    | cons d ds =>
      simp only [strLtb] at h ⊢
      by_cases hcd : c = d
      · subst hcd
        simp only [if_pos rfl] at h ⊢
        exact ih ds h
      · rw [if_neg hcd] at h
        rw [if_neg (fun hh => hcd hh.symm)]
        simp only [decide_eq_true_eq] at h
        simp only [decide_eq_false_iff_not]
        omega

theorem strLtb_conn : ∀ x y, strLtb x y = false → strLtb y x = false → x = y := by
  intro x
  induction x with
  | nil => intro y h1 h2; cases y <;> simp_all [strLtb]
  | cons c cs ih =>
    intro y h1 h2
    cases y with
    | nil => simp [strLtb] at h2
    | cons d ds =>
      simp only [strLtb] at h1 h2
      by_cases hcd : c = d
      · subst hcd
        simp only [if_pos rfl] at h1 h2
        rw [ih ds h1 h2]
      · rw [if_neg hcd] at h1
        rw [if_neg (fun hh => hcd hh.symm)] at h2
        simp only [decide_eq_false_iff_not] at h1 h2
        exact absurd (charToNatInj c d (by omega)) hcd

/-- Claim C4: a `dm` from A to B and a `dm` from B to A persist under the
identical store key — the key function `[a, b].sort().join("|")` used by
the `dm` handler and the `/dm/:userA/:userB` endpoint is symmetric. -/
theorem dm_store_key_symmetric : ∀ a b : String, dmKey a b = dmKey b a := by
  intro a b
  unfold dmKey sortPair
  cases hba : jsLt b a with
  | true =>
    have hab : jsLt a b = false := strLtb_asymm b.data a.data hba
    simp [hba, hab]
  | false =>
    cases hab : jsLt a b with
    | true => simp [hba, hab]
    | false =>
      have hd : a.data = b.data := strLtb_conn a.data b.data hab hba
      have hs : a = b := congrArg String.mk hd
      subst hs
      rfl

end Chat

namespace Chat

/-! ## Helper lemmas about the dispatcher's error paths -/

theorem handleEvent_gate (st : ServerState) (ws : Nat) (meta : Meta)
    (e : ClientEvent) (now : Nat)
    (h : lookupL st.clients ws = some meta)
    (hu : truthyS meta.username = false)
    (he : isLogin e = false) :
    handleEvent st ws e now = (st, [(ws, ServerMsg.error "Please login first.")]) := by
  cases e <;> simp [handleEvent, h, hu, isLogin] at he ⊢

theorem handleMessage_no_room (st : ServerState) (ws : Nat) (meta : Meta)
    (r t : Option String) (now : Nat)
    (h : lookupL st.clients ws = some meta)
    (hu : truthyS meta.username = true)
    (hr : truthyS (jsOr r meta.room) = false) :
    handleEvent st ws (.message r t) now
      = (st, [(ws, ServerMsg.error "Not in a room")]) := by
  simp [handleEvent, h, hu, handleMessage, hr]

theorem handleHistory_no_room (st : ServerState) (ws : Nat) (meta : Meta)
    (r : Option String) (now : Nat)
    (h : lookupL st.clients ws = some meta)
    (hu : truthyS meta.username = true)
    (hr : truthyS r = false) :
    handleEvent st ws (.history r) now
      = (st, [(ws, ServerMsg.error "room required")]) := by
  simp [handleEvent, h, hu, handleHistory, hr]

theorem handleCreateRoom_empty (st : ServerState) (ws : Nat) (meta : Meta)
    (r : Option String) (now : Nat)
    (h : lookupL st.clients ws = some meta)
    (hu : truthyS meta.username = true)
    (hr : jsTrim (jsString r) = "") :
    handleEvent st ws (.createRoom r) now = (st, []) := by
  simp [handleEvent, h, hu, handleCreateRoom, hr]

theorem handleJoinRoom_empty (st : ServerState) (ws : Nat) (meta : Meta)
    (r : Option String) (now : Nat)
    (h : lookupL st.clients ws = some meta)
    (hu : truthyS meta.username = true)
    (hr : jsTrim (jsString r) = "") :
    handleEvent st ws (.joinRoom r) now = (st, []) := by
  simp [handleEvent, h, hu, handleJoinRoom, hr]

theorem handleDm_empty (st : ServerState) (ws : Nat) (meta : Meta)
    (toU t : Option String) (now : Nat)
    (h : lookupL st.clients ws = some meta)
    (hu : truthyS meta.username = true)
    (hto : jsTrim ((jsOr toU (some "")).getD "") = "") :
    handleEvent st ws (.dm toU t) now = (st, []) := by
  simp [handleEvent, h, hu, handleDm, hto]

end Chat

namespace Chat

/-! ## C1: bidirectional session/directory consistency -/

/-- Claim C1 fails on the code: after connect, login, `join_room
"general"`, and a re-login, session 1's `room` field is `"lobby"` while
the session is still a member of `"general"`'s membership set — the
`login` handler adds the session to the lobby without removing its
previous membership, breaking bidirectional consistency. -/
theorem relogin_breaks_room_consistency :
    (lookupL stRelogin.clients 1).map Meta.room = some (some "lobby") ∧
    1 ∈ (lookupL stRelogin.rooms "general").getD [] ∧
    ("general" : String) ≠ "lobby" := by decide

/-! ## C2: precondition violations -/

/-- Claim C2 is refuted: a logged-in session sending `create_room` with
an empty (precondition-violating) room name receives no reply at all —
the handler returns silently instead of replying with an `error` event. -/
theorem create_room_empty_name_silent :
    handleEvent stLogin1 1 (.createRoom (some "")) 0 = (stLogin1, []) := by decide

/-- Claim C2 (amended): unauthenticated non-`login` events, `message`
events with no resolvable room, and `history` events without a room get
an `error` reply and no state mutation; `create_room`/`join_room` whose
room name trims to empty and `dm` whose target trims to empty are
dropped silently — no reply and no state mutation. -/
theorem precondition_violations_handled :
    ∀ (st : ServerState) (ws : Nat) (meta : Meta) (now : Nat),
      lookupL st.clients ws = some meta →
      ((truthyS meta.username = false → ∀ e : ClientEvent, isLogin e = false →
          handleEvent st ws e now
            = (st, [(ws, ServerMsg.error "Please login first.")])) ∧
       (truthyS meta.username = true → ∀ r t : Option String,
          truthyS (jsOr r meta.room) = false →
          handleEvent st ws (.message r t) now
            = (st, [(ws, ServerMsg.error "Not in a room")])) ∧
       (truthyS meta.username = true → ∀ r : Option String, truthyS r = false →
          handleEvent st ws (.history r) now
            = (st, [(ws, ServerMsg.error "room required")])) ∧
       (truthyS meta.username = true → ∀ r : Option String,
          jsTrim (jsString r) = "" →
          handleEvent st ws (.createRoom r) now = (st, []) ∧
          handleEvent st ws (.joinRoom r) now = (st, [])) ∧
       (truthyS meta.username = true → ∀ toU t : Option String,
          jsTrim ((jsOr toU (some "")).getD "") = "" →
          handleEvent st ws (.dm toU t) now = (st, []))) := by
  intro st ws meta now h
  refine ⟨?_, ?_, ?_, ?_, ?_⟩
  · intro hu e he
    exact handleEvent_gate st ws meta e now h hu he
  · intro hu r t hr
    exact handleMessage_no_room st ws meta r t now h hu hr
  · intro hu r hr
    exact handleHistory_no_room st ws meta r now h hu hr
  · intro hu r hr
    exact ⟨handleCreateRoom_empty st ws meta r now h hu hr,
           handleJoinRoom_empty st ws meta r now h hu hr⟩
  · intro hu toU t hto
    exact handleDm_empty st ws meta toU t now h hu hto

/-- Concrete instances of the amended C2 theorem. -/
theorem precondition_violations_handled_witness :
    handleEvent stConn1 1 (.typing true) 0
      = (stConn1, [(1, ServerMsg.error "Please login first.")]) ∧
    handleEvent stLeave 1 (.message none (some "hi")) 0
      = (stLeave, [(1, ServerMsg.error "Not in a room")]) ∧
    handleEvent stLogin1 1 (.history none) 0
      = (stLogin1, [(1, ServerMsg.error "room required")]) ∧
    handleEvent stLogin1 1 (.createRoom (some " ")) 0 = (stLogin1, []) ∧
    handleEvent stLogin1 1 (.dm (some "  ") (some "x")) 0 = (stLogin1, []) :=
  ⟨(precondition_violations_handled stConn1 1 ⟨1, none, none, false⟩ 0
      (by decide)).1 (by decide) (.typing true) (by decide),
   (precondition_violations_handled stLeave 1 ⟨1, some "alice", none, false⟩ 0
      (by decide)).2.1 (by decide) none (some "hi") (by decide),
   (precondition_violations_handled stLogin1 1 ⟨1, some "alice", some "lobby", false⟩ 0
      (by decide)).2.2.1 (by decide) none (by decide),
   ((precondition_violations_handled stLogin1 1 ⟨1, some "alice", some "lobby", false⟩ 0
      (by decide)).2.2.2.1 (by decide) (some " ") (by decide)).1,
   (precondition_violations_handled stLogin1 1 ⟨1, some "alice", some "lobby", false⟩ 0
      (by decide)).2.2.2.2 (by decide) (some "  ") (some "x") (by decide)⟩

/-! ## C5: idempotence of a second login on room membership -/

/-- Claim C5 is refuted: after login, `join_room "general"`, and a second
login on the same channel, the session is a member of both `"lobby"` and
`"general"` — two membership sets, not exactly one. -/
theorem second_login_leaves_two_memberships :
    1 ∈ (lookupL stRelogin.rooms "lobby").getD [] ∧
    1 ∈ (lookupL stRelogin.rooms "general").getD [] ∧
    ("lobby" : String) ≠ "general" := by decide

/-- Claim C5 (amended): a second `login` is idempotent on room membership
provided the session is a member of no room other than `"lobby"`
beforehand (e.g. two consecutive logins): afterwards it belongs to
`"lobby"` and to no other room's membership set.  (If the session joined
a different room between the logins, the second login leaves it a member
of two rooms.) -/
theorem login_membership_idempotent (st : ServerState) (ws : Nat)
    (meta : Meta) (u : Option String) (now : Nat)
    (h : lookupL st.clients ws = some meta)
    (hmem : ∀ r ms, lookupL st.rooms r = some ms → ws ∈ ms → r = "lobby") :
    ws ∈ (lookupL ((handleEvent st ws (.login u) now).1).rooms "lobby").getD [] ∧
    (∀ r ms, lookupL ((handleEvent st ws (.login u) now).1).rooms r = some ms →
      ws ∈ ms → r = "lobby") := by
  have hrooms : ((handleEvent st ws (.login u) now).1).rooms
      = setL st.rooms "lobby" (addMem ((lookupL st.rooms "lobby").getD []) ws) := by
    simp [handleEvent, h, handleLogin]
  constructor
  · rw [hrooms, lookupL_setL]
    simp [mem_addMem_self]
  · intro r ms hlk hin
    rw [hrooms, lookupL_setL] at hlk
    by_cases hr : r = "lobby"
    · exact hr
    · rw [if_neg hr] at hlk
      exact hmem r ms hlk hin

/-- Concrete instance of the amended C5 theorem: alice's second login
leaves her in the lobby's membership set. -/
theorem login_membership_idempotent_witness :
    1 ∈ (lookupL ((handleEvent stLogin1 1 (.login (some "alice")) 0).1).rooms
          "lobby").getD [] :=
  (login_membership_idempotent stLogin1 1 ⟨1, some "alice", some "lobby", false⟩
    (some "alice") 0 (by decide)
    (by
      intro r ms hlk _
      have hr : stLogin1.rooms = [("lobby", [1])] := by decide
      rw [hr] at hlk
      simp only [lookupL] at hlk
      by_cases h : "lobby" = r
      · exact h.symm
      · rw [if_neg h] at hlk
        exact absurd hlk (by simp))).1

/-! ## C6: message with no room and no prior join -/

/-- Claim C6: a logged-in session whose `room` is null sending `message`
with no explicit room gets an `error` reply and the whole state — in
particular the durable store — is unchanged. -/
theorem message_without_room_errors (st : ServerState) (ws : Nat)
    (meta : Meta) (t : Option String) (now : Nat)
    (h : lookupL st.clients ws = some meta)
    (hu : truthyS meta.username = true)
    (hr : meta.room = none) :
    handleEvent st ws (.message none t) now
      = (st, [(ws, ServerMsg.error "Not in a room")]) := by
  apply handleMessage_no_room st ws meta none t now h hu
  simp [jsOr, truthyS, hr]

/-- Concrete instance of C6: alice after `leave_room` sends a message
with no room. -/
theorem message_without_room_errors_witness :
    handleEvent stLeave 1 (.message none (some "hello")) 3
      = (stLeave, [(1, ServerMsg.error "Not in a room")]) :=
  message_without_room_errors stLeave 1 ⟨1, some "alice", none, false⟩
    (some "hello") 3 (by decide) (by decide) (by decide)

/-! ## C7: typing notification fan-out -/

/-- Claim C7 fails on the code: with alice and bob both members of the
lobby, alice's `typing` event is broadcast by `broadcastToRoom` to every
member of the room *including alice herself* — the code's own comment
says "notify other users in the same room", but there is no sender
exclusion.  (The typing flag is set, and no one outside the room is
notified: the full send list is exactly the room's membership.) -/
theorem typing_notifies_sender_too :
    (handleEvent stLogin2 1 (.typing true) 0).2
      = [(1, ServerMsg.typing (some "lobby") "alice" true),
         (2, ServerMsg.typing (some "lobby") "alice" true)] ∧
    (lookupL (handleEvent stLogin2 1 (.typing true) 0).1.clients 1).map Meta.typing
      = some true := by decide

end Chat

namespace Chat

/-! ## C3: retention cap of 2000, FIFO drop of the oldest entry -/

/-- Claim C3: with a stored log at cap 2000, the `message` handler's
append drops exactly the oldest entry, leaves the log at length 2000 and
preserves the order of the remaining entries (the new log is literally
`l.tail ++ [new]`); likewise the `dm` handler for a DM-pair key. -/
theorem retention_cap_drops_oldest :
    (∀ (st : ServerState) (ws : Nat) (meta : Meta) (r t : Option String)
        (now : Nat) (room : String) (l : List Msg),
      lookupL st.clients ws = some meta → truthyS meta.username = true →
      jsOr r meta.room = some room → room ≠ "" →
      lookupL st.dbRooms room = some l → l.length = 2000 →
      lookupL ((handleEvent st ws (.message r t) now).1).dbRooms room
          = some (l.tail ++ [⟨meta.username.getD "", t.getD "", now⟩]) ∧
        (l.tail ++ [(⟨meta.username.getD "", t.getD "", now⟩ : Msg)]).length = 2000) ∧
    (∀ (st : ServerState) (ws : Nat) (meta : Meta) (toU t : Option String)
        (now : Nat) (toName : String) (l : List DmMsg),
      lookupL st.clients ws = some meta → truthyS meta.username = true →
      jsTrim ((jsOr toU (some "")).getD "") = toName → toName ≠ "" →
      lookupL st.dbDms (dmKey (meta.username.getD "") toName) = some l →
      l.length = 2000 →
      lookupL ((handleEvent st ws (.dm toU t) now).1).dbDms
          (dmKey (meta.username.getD "") toName)
          = some (l.tail ++ [⟨meta.username.getD "", toName, t.getD "", now⟩]) ∧
        (l.tail ++ [(⟨meta.username.getD "", toName, t.getD "", now⟩ : DmMsg)]).length
          = 2000) := by
  constructor
  · intro st ws meta r t now room l h hu hr hroom hl hlen
    have htr : truthyS (some room) = true := by
      simp [truthyS, hroom]
    have hst : ((handleEvent st ws (.message r t) now).1).dbRooms
        = setL st.dbRooms room
            (pushCap l ⟨meta.username.getD "", t.getD "", now⟩) := by
      simp [handleEvent, h, hu, handleMessage, htr, hr, hl]
    obtain ⟨hpc, hlen'⟩ :=
      pushCap_at_cap l (⟨meta.username.getD "", t.getD "", now⟩ : Msg) hlen
    rw [hst, lookupL_setL, if_pos rfl, hpc]
    exact ⟨rfl, hlen'⟩
  · intro st ws meta toU t now toName l h hu hto hname hl hlen
    have hst : ((handleEvent st ws (.dm toU t) now).1).dbDms
        = setL st.dbDms (dmKey (meta.username.getD "") toName)
            (pushCap l ⟨meta.username.getD "", toName, t.getD "", now⟩) := by
      simp [handleEvent, h, hu, handleDm, hto, hname, hl]
    obtain ⟨hpc, hlen'⟩ :=
      pushCap_at_cap l (⟨meta.username.getD "", toName, t.getD "", now⟩ : DmMsg) hlen
    rw [hst, lookupL_setL, if_pos rfl, hpc]
    exact ⟨rfl, hlen'⟩

/-- Concrete instances of C3 at a log of length exactly 2000. -/
theorem retention_cap_drops_oldest_witness :
    lookupL ((handleEvent stCap 1 (.message none (some "hi")) 5).1).dbRooms "lobby"
      = some ((List.replicate 2000 msgA).tail ++ [⟨"alice", "hi", 5⟩]) ∧
    lookupL ((handleEvent stCap 1 (.dm (some "bob") (some "yo")) 7).1).dbDms
        (dmKey "alice" "bob")
      = some ((List.replicate 2000 dmA).tail ++ [⟨"alice", "bob", "yo", 7⟩]) :=
  ⟨(retention_cap_drops_oldest.1 stCap 1 ⟨1, some "alice", some "lobby", false⟩
      none (some "hi") 5 "lobby" (List.replicate 2000 msgA)
      (by decide) (by decide) (by decide) (by decide) rfl
      (by rw [List.length_replicate])).1,
   (retention_cap_drops_oldest.2 stCap 1 ⟨1, some "alice", some "lobby", false⟩
      (some "bob") (some "yo") 7 "bob" (List.replicate 2000 dmA)
      (by decide) (by decide) (by decide) (by decide) rfl
      (by rw [List.length_replicate])).1⟩

end Chat

namespace Chat

/-! ## C8: history replies carry at most the last 200 stored messages -/

/-- Claim C8: the history payload replied on `login` and on `join_room`
is `slice(-200)` of the stored log for the joined room: the whole log
when it has at most 200 entries, and its final 200 entries in order (a
suffix of the log) otherwise. -/
theorem history_reply_last_200 :
    (∀ (st : ServerState) (ws : Nat) (meta : Meta) (u : Option String) (now : Nat),
      lookupL st.clients ws = some meta →
      (ws, ServerMsg.history "lobby"
          (sliceLast 200 ((lookupL st.dbRooms "lobby").getD []))) ∈
        (handleEvent st ws (.login u) now).2) ∧
    (∀ (st : ServerState) (ws : Nat) (meta : Meta) (r : Option String)
        (now : Nat) (room : String),
      lookupL st.clients ws = some meta → truthyS meta.username = true →
      jsTrim (jsString r) = room → room ≠ "" →
      (ws, ServerMsg.history room
          (sliceLast 200 ((lookupL st.dbRooms room).getD []))) ∈
        (handleEvent st ws (.joinRoom r) now).2) ∧
    (∀ l : List Msg,
      (l.length ≤ 200 → sliceLast 200 l = l) ∧
      (200 < l.length → (sliceLast 200 l).length = 200 ∧ sliceLast 200 l <:+ l)) := by
  refine ⟨?_, ?_, ?_⟩
  · intro st ws meta u now h
    have hens : (lookupL (ensureKey st.dbRooms "lobby") "lobby").getD []
        = (lookupL st.dbRooms "lobby").getD [] := by
      rw [lookupL_ensureKey_self]
      rfl
    simp [handleEvent, h, handleLogin, hens]
  · intro st ws meta r now room h hu hr hroom
    have hens : (lookupL (ensureKey st.dbRooms room) room).getD []
        = (lookupL st.dbRooms room).getD [] := by
      rw [lookupL_ensureKey_self]
      rfl
    simp [handleEvent, h, hu, handleJoinRoom, hr, hroom, hens]
  · intro l
    constructor
    · intro hle
      unfold sliceLast
      rw [Nat.sub_eq_zero_of_le hle, List.drop_zero]
    · intro hgt
      refine ⟨?_, List.drop_suffix _ _⟩
      unfold sliceLast
      rw [List.length_drop]
      omega

/-- Concrete instances of C8: login reply, join reply, a short log, and
a log longer than 200 entries. -/
theorem history_reply_last_200_witness :
    (1, ServerMsg.history "lobby"
        (sliceLast 200 ((lookupL stConn1.dbRooms "lobby").getD []))) ∈
      (handleEvent stConn1 1 (.login (some "alice")) 0).2 ∧
    (1, ServerMsg.history "general"
        (sliceLast 200 ((lookupL stLogin1.dbRooms "general").getD []))) ∈
      (handleEvent stLogin1 1 (.joinRoom (some "general")) 0).2 ∧
    sliceLast 200 (List.replicate 10 msgA) = List.replicate 10 msgA ∧
    (sliceLast 200 (List.replicate 300 msgA)).length = 200 ∧
    sliceLast 200 (List.replicate 300 msgA) <:+ List.replicate 300 msgA :=
  ⟨history_reply_last_200.1 stConn1 1 ⟨1, none, none, false⟩ (some "alice") 0
     (by decide),
   history_reply_last_200.2.1 stLogin1 1 ⟨1, some "alice", some "lobby", false⟩
     (some "general") 0 "general" (by decide) (by decide) (by decide) (by decide),
   (history_reply_last_200.2.2 (List.replicate 10 msgA)).1
     (by rw [List.length_replicate]; omega),
   ((history_reply_last_200.2.2 (List.replicate 300 msgA)).2
     (by rw [List.length_replicate]; omega)).1,
   ((history_reply_last_200.2.2 (List.replicate 300 msgA)).2
     (by rw [List.length_replicate]; omega)).2⟩

end Chat

namespace Chat

/-! ## C9: the display name assigned at login -/

theorem jsTrim_ne_empty_of_head (c : Char) (cs : List Char)
    (hc : c.isWhitespace = false) : jsTrim ⟨c :: cs⟩ ≠ "" := by
  unfold jsTrim
  intro hcontra
  have hlist : (((c :: cs).dropWhile Char.isWhitespace).reverse.dropWhile
      Char.isWhitespace).reverse = [] := congrArg String.data hcontra
  rw [List.dropWhile_cons] at hlist
  rw [hc] at hlist
  simp only [Bool.false_eq_true, if_false, List.reverse_eq_nil_iff,
    List.dropWhile_eq_nil_iff] at hlist
  have := hlist c (by simp)
  rw [hc] at this
  exact Bool.false_ne_true this

theorem jsTrim_user_ne_empty (n : Nat) : jsTrim ("User" ++ toString n) ≠ "" := by
  obtain ⟨l⟩ := toString n
  have hdata : ("User" ++ String.mk l) = String.mk ('U' :: 's' :: 'e' :: 'r' :: l) := rfl
  rw [hdata]
  exact jsTrim_ne_empty_of_head 'U' ('s' :: 'e' :: 'r' :: l) (by decide)

/-- Claim C9 is refuted: logging in with the whitespace-only username
`"   "` assigns the *empty* display name — the `UserN` fallback applies
only to a falsy (absent or empty) `username` before trimming, so a
whitespace-only name trims to `""` and the display name is not always
non-empty. -/
theorem whitespace_login_name_empty :
    (lookupL ((handleEvent stConn1 1 (.login (some "   ")) 0).1).clients 1).map
      Meta.username = some (some "") := by decide

/-- Claim C9 (amended): the assigned display name is the supplied name
trimmed of whitespace; an absent or empty-string supplied name falls
back to the generated `UserN`, which is non-empty; but a whitespace-only
supplied name trims to the empty display name, so the assigned name is
not always non-empty. -/
theorem login_assigned_name (st : ServerState) (ws : Nat) (meta : Meta)
    (u : Option String) (now : Nat)
    (h : lookupL st.clients ws = some meta) :
    (lookupL ((handleEvent st ws (.login u) now).1).clients ws
        = some { meta with username := some (loginName u meta.id),
                           room := some "lobby" }) ∧
    (truthyS u = true → loginName u meta.id = jsTrim (u.getD "")) ∧
    (truthyS u = false →
      loginName u meta.id = jsTrim ("User" ++ toString meta.id) ∧
      loginName u meta.id ≠ "") := by
  refine ⟨?_, ?_, ?_⟩
  · have hcl : ((handleEvent st ws (.login u) now).1).clients
        = setL st.clients ws
            { meta with username := some (loginName u meta.id),
                        room := some "lobby" } := by
      simp [handleEvent, h, handleLogin]
    rw [hcl, lookupL_setL, if_pos rfl]
  · intro hu
    cases u with
    | none => simp [truthyS] at hu
    | some s => simp [loginName, jsOr, jsString, hu]
  · intro hu
    have hname : loginName u meta.id = jsTrim ("User" ++ toString meta.id) := by
      simp [loginName, jsOr, jsString, hu]
    exact ⟨hname, hname ▸ jsTrim_user_ne_empty meta.id⟩

/-- Concrete instances of the amended C9 theorem: an absent username on
connection 1 yields the generated, non-empty name; a supplied name is
trimmed. -/
theorem login_assigned_name_witness :
    lookupL ((handleEvent stConn1 1 (.login none) 0).1).clients 1
      = some ⟨1, some (loginName none 1), some "lobby", false⟩ ∧
    loginName none 1 = jsTrim ("User" ++ toString 1) ∧
    loginName none 1 ≠ "" ∧
    loginName (some " bob ") 1 = jsTrim " bob " :=
  ⟨(login_assigned_name stConn1 1 ⟨1, none, none, false⟩ none 0 (by decide)).1,
   ((login_assigned_name stConn1 1 ⟨1, none, none, false⟩ none 0 (by decide)).2.2
     (by decide)).1,
   ((login_assigned_name stConn1 1 ⟨1, none, none, false⟩ none 0 (by decide)).2.2
     (by decide)).2,
   (login_assigned_name stConn1 1 ⟨1, none, none, false⟩ (some " bob ") 0
     (by decide)).2.1 (by decide)⟩

/-! ## C10: message with an explicit room: persist and fan out, no checks -/

/-- Claim C10: a logged-in session's `message` carrying an explicit
non-empty room name is appended to the store under that room key
(creating the key if absent, with the retention cap) and delivered to
exactly the directory's current members of that room; the registry, the
directory and the DM store are untouched, and nothing checks that the
sender is a member or that the room exists — a room with no directory
entry still gets the store mutation and an empty recipient list. -/
theorem message_explicit_room (st : ServerState) (ws : Nat) (meta : Meta)
    (r : String) (t : Option String) (now : Nat)
    (h : lookupL st.clients ws = some meta)
    (hu : truthyS meta.username = true)
    (hr : r ≠ "") :
    (handleEvent st ws (.message (some r) t) now).1.dbRooms
      = setL st.dbRooms r
          (pushCap ((lookupL st.dbRooms r).getD [])
            ⟨meta.username.getD "", t.getD "", now⟩) ∧
    (handleEvent st ws (.message (some r) t) now).1.clients = st.clients ∧
    (handleEvent st ws (.message (some r) t) now).1.rooms = st.rooms ∧
    (handleEvent st ws (.message (some r) t) now).1.dbDms = st.dbDms ∧
    (handleEvent st ws (.message (some r) t) now).2
      = ((lookupL st.rooms r).getD []).map
          (fun w => (w, ServerMsg.roomMessage r (meta.username.getD "")
                          (t.getD "") now)) := by
  have htr : truthyS (some r) = true := by
    simp [truthyS, hr]
  have hor : jsOr (some r) meta.room = some r := by
    simp [jsOr, htr]
  refine ⟨?_, ?_, ?_, ?_, ?_⟩ <;>
    simp [handleEvent, h, hu, handleMessage, hor, htr, membersOf]

/-- Concrete instance of C10 at a room with no directory entry: the
store gains the key, and the message is delivered to no one. -/
theorem message_explicit_room_witness :
    (handleEvent stCap 1 (.message (some "ghost") (some "boo")) 9).1.dbRooms
      = setL stCap.dbRooms "ghost"
          (pushCap ((lookupL stCap.dbRooms "ghost").getD []) ⟨"alice", "boo", 9⟩) ∧
    (handleEvent stCap 1 (.message (some "ghost") (some "boo")) 9).2 = [] :=
  ⟨(message_explicit_room stCap 1 ⟨1, some "alice", some "lobby", false⟩
      "ghost" (some "boo") 9 (by decide) (by decide) (by decide)).1,
   ((message_explicit_room stCap 1 ⟨1, some "alice", some "lobby", false⟩
      "ghost" (some "boo") 9 (by decide) (by decide) (by decide)).2.2.2.2).trans
     (by decide)⟩

end Chat
